import Mathlib

/-!
Verification of the coin-crab market-data service against its specification.

The Rust sources are embedded shallowly: pure control flow becomes Lean
functions, the upstream HTTP world and broker deliveries become explicit
environment records, and stateful handlers become state-passing functions.
Floating-point numbers in the source are only parsed, stored and compared
for presence (never computed with), so they are modelled by `Rat`; the
`timestamp` of a historical point is produced by `timestamp()` on a parsed
date and is therefore an integer number of seconds, modelled by `Int`.
-/

namespace CoinCrab

/-! ## Shared data model (crates/shared/src/types.rs) -/

/-- Mirror of `shared::UsdQuote`. -/
structure UsdQuote where
  price : Rat
  percent_change_1h : Rat
  percent_change_24h : Rat
  percent_change_7d : Rat
  market_cap : Rat
  volume_24h : Rat
  last_updated : String
deriving Repr, DecidableEq

/-- Mirror of `shared::Quote`. -/
structure Quote where
  usd : UsdQuote
deriving Repr, DecidableEq

/-- Mirror of `shared::CryptoCurrency`. -/
structure CryptoCurrency where
  id : Nat
  name : String
  symbol : String
  quote : Quote
deriving Repr, DecidableEq

/-- Mirror of `shared::HistoricalDataPoint`. -/
structure HistoricalDataPoint where
  timestamp : Int
  price : Rat
  volume : Option Rat
deriving Repr, DecidableEq

/-- Mirror of `shared::HistoricalDataResult`. -/
structure HistoricalDataResult where
  success : Bool
  data : List HistoricalDataPoint
  error : Option String
  symbol : Option String
  timeframe : Option String
deriving Repr, DecidableEq

/-! ## Upstream environment for `fetch_historical_data_server`
(crates/server/src/data.rs, lines 230-415)

The function makes two upstream HTTP calls: a symbol-to-id lookup on the
quotes-latest endpoint and then the quotes/historical call.  Each call's
observable outcome is captured by an environment value; every constructor
corresponds to one early-return branch of the source. -/

/-- Outcome of the quotes-latest call resolving the symbol to a CMC id.
Constructors follow the branches of data.rs lines 258-320. -/
inductive IdLookupOutcome where
  | netError (msg : String)
  | httpError (status : String)
  | jsonError (msg : String)
  | noData
  | noId
  | found (id : Nat)
deriving Repr, DecidableEq

/-- One element of the upstream `data.quotes` array.  `timestamp` is
`some t` iff the `timestamp` field is present and parses via RFC 3339 to
`t` whole seconds; `price` is `some p` iff `quote.USD.price` is present as
a number (data.rs lines 351-366). -/
structure RawQuote where
  timestamp : Option Int
  price : Option Rat
  volume : Option Rat
deriving Repr, DecidableEq

/-- Outcome of the quotes/historical call (data.rs lines 337-414).  A
missing or non-array `data.quotes` behaves as `quotes []` in the source,
so it is represented that way. -/
inductive HistOutcome where
  | netError (msg : String)
  | httpError (status : String)
  | jsonError (msg : String)
  | quotes (qs : List RawQuote)
deriving Repr, DecidableEq

/-- The upstream world as seen by one `fetch_historical_data_server` call. -/
structure UpstreamEnv where
  idLookup : IdLookupOutcome
  hist : HistOutcome
deriving Repr, DecidableEq

/-- The point filter of data.rs lines 350-367: a quote contributes a
`HistoricalDataPoint` iff its timestamp parses and its price is present;
order is preserved, nothing is sorted. -/
def filterQuotes : List RawQuote → List HistoricalDataPoint
  | [] => []
  | q :: rest =>
    match q.timestamp, q.price with
    | some t, some p => ⟨t, p, q.volume⟩ :: filterQuotes rest
    | _, _ => filterQuotes rest

/-- Rust `str::to_uppercase` restricted to what it does on the ASCII
symbol strings this service handles: uppercase every character. -/
def toUpperStr (s : String) : String :=
  ⟨s.data.map Char.toUpper⟩

/-- Error result constructor used by every failure branch of
`fetch_historical_data_server`: empty data, the message, echoed
uppercased symbol and echoed timeframe. -/
def mkFetchError (sym tf msg : String) : HistoricalDataResult :=
  ⟨false, [], some msg, some sym, some tf⟩

/-- Shallow embedding of `fetch_historical_data_server`
(crates/server/src/data.rs lines 230-415). -/
def fetch_historical_data_server (env : UpstreamEnv) (symbol timeframe : String) :
    HistoricalDataResult :=
  let sym := toUpperStr symbol
  match env.idLookup with
  | .netError m => mkFetchError sym timeframe ("Network error getting crypto ID: " ++ m)
  | .httpError s => mkFetchError sym timeframe ("HTTP error getting crypto ID: " ++ s)
  | .jsonError m => mkFetchError sym timeframe ("JSON parsing error: " ++ m)
  | .noData => mkFetchError sym timeframe "Invalid symbol or no data found"
  | .noId => mkFetchError sym timeframe "Could not find cryptocurrency ID"
  | .found _ =>
    match env.hist with
    | .netError m => mkFetchError sym timeframe ("Network error: " ++ m)
    | .httpError s => mkFetchError sym timeframe ("HTTP error: " ++ s)
    | .jsonError m => mkFetchError sym timeframe ("JSON parsing error: " ++ m)
    | .quotes qs =>
      let pts := filterQuotes qs
      if pts.isEmpty then
        mkFetchError sym timeframe "No historical data points found"
      else
        ⟨true, pts, none, some sym, some timeframe⟩

/-- Strict monotonicity in timestamp of a result's data, as the spec's
series invariant states it. -/
def timestampsStrictMono : List HistoricalDataPoint → Bool
  | [] => true
  | [_] => true
  | a :: b :: rest => decide (a.timestamp < b.timestamp) && timestampsStrictMono (b :: rest)

/-- A concrete upstream world whose historical call succeeds with two
well-formed points delivered out of timestamp order. -/
def envOutOfOrder : UpstreamEnv :=
  ⟨.found 1, .quotes [⟨some 200, some 2, none⟩, ⟨some 100, some 1, none⟩]⟩

/-- C6 counterexample: the source never sorts nor checks ordering, so an
upstream response whose quotes arrive out of timestamp order yields a
successful Series that is not strictly monotone in timestamp. -/
theorem C6_counterexample :
    (fetch_historical_data_server envOutOfOrder "BTC" "24h").success = true ∧
    timestampsStrictMono (fetch_historical_data_server envOutOfOrder "BTC" "24h").data = false := by
  decide

/-- C6 amended: every Series returned by the fetch satisfies: on success
the data is non-empty and is exactly the upstream quotes with points whose
timestamp or price is missing or unparseable skipped, in upstream order
(monotone only if the upstream response is); on failure the error is set
and the data is empty; an empty result after filtering is reported as
success=false with error "No historical data points found". -/
theorem C6_amended (env : UpstreamEnv) (symbol timeframe : String) :
    ((fetch_historical_data_server env symbol timeframe).success = true →
      (fetch_historical_data_server env symbol timeframe).data ≠ []) ∧
    ((fetch_historical_data_server env symbol timeframe).success = false →
      (fetch_historical_data_server env symbol timeframe).error.isSome = true ∧
      (fetch_historical_data_server env symbol timeframe).data = []) ∧
    (∀ i qs, env.idLookup = .found i → env.hist = .quotes qs →
      (filterQuotes qs = [] →
        (fetch_historical_data_server env symbol timeframe).success = false ∧
        (fetch_historical_data_server env symbol timeframe).error =
          some "No historical data points found") ∧
      (filterQuotes qs ≠ [] →
        (fetch_historical_data_server env symbol timeframe).success = true ∧
        (fetch_historical_data_server env symbol timeframe).data = filterQuotes qs)) := by
  unfold fetch_historical_data_server
  cases env.idLookup <;> simp [mkFetchError]
  cases env.hist <;> simp [mkFetchError]
  rename_i qs
  by_cases hq : filterQuotes qs = [] <;> simp [hq]

/-- Witness for C6 amended at a concrete successful environment. -/
theorem C6_amended_witness :
    (fetch_historical_data_server ⟨.found 7, .quotes [⟨some 5, some 3, none⟩]⟩ "btc" "7d").success
        = true ∧
    (fetch_historical_data_server ⟨.found 7, .quotes [⟨some 5, some 3, none⟩]⟩ "btc" "7d").data
        = filterQuotes [⟨some 5, some 3, none⟩] := by
  have h := C6_amended ⟨.found 7, .quotes [⟨some 5, some 3, none⟩]⟩ "btc" "7d"
  have h2 := (h.2.2 7 [⟨some 5, some 3, none⟩] rfl rfl).2 (by decide)
  exact ⟨h2.1, h2.2⟩

/-! ## Publisher-side server state and the two historical entry points

The publisher-side historical cache (`AppState.historical_cache`,
crates/server/src/types.rs) maps `"<SYMBOL>:<TIMEFRAME>"` keys to a pair
of the Series and its insertion time; it is modelled as an association
list with replace-on-insert, matching `HashMap::insert`. -/

/-- Publisher-side historical cache: key, Series, insertion time. -/
def HistCache := List (String × HistoricalDataResult × Nat)
deriving Repr, DecidableEq

/-- `HashMap::insert`: replaces any previous binding of the key. -/
def cacheInsert (c : HistCache) (k : String) (v : HistoricalDataResult × Nat) : HistCache :=
  (k, v) :: (c : List _).filter (fun e => e.1 != k)

/-- `HashMap::get`. -/
def cacheLookup (c : HistCache) (k : String) : Option (HistoricalDataResult × Nat) :=
  ((c : List _).find? (fun e => e.1 == k)).map Prod.snd

/-- Rust `str::split_once(':')` on the character list: split at the first
colon, both sides possibly empty, and the separator dropped. -/
def splitOnceColonChars : List Char → Option (List Char × List Char)
  | [] => none
  | a :: rest =>
    if a = ':' then some ([], rest)
    else
      match splitOnceColonChars rest with
      | some (l, r) => some (a :: l, r)
      | none => none

/-- Rust `str::split_once(':')` on strings. -/
def splitOnceColon (s : String) : Option (String × String) :=
  match splitOnceColonChars s.data with
  | some (l, r) => some (⟨l⟩, ⟨r⟩)
  | none => none

/-- Observable effect of the MQTT request handler processing one message
on crypto/requests/historical: how many upstream fetches it performed,
which (symbol, timeframe, Series) triples it published retained on the
matching historical topic, and the publisher-side cache afterwards. -/
structure RequestEffect where
  upstreamFetches : Nat
  publishes : List (String × String × HistoricalDataResult)
  cacheAfter : HistCache
deriving Repr, DecidableEq

/-- Shallow embedding of the publish branch of the request-handler event
loop (crates/server/src/mqtt/request_handler.rs lines 50-88): decode the
payload, split on the first colon, reject silently if there is none;
otherwise fetch upstream and publish on success, do nothing on failure.
The handler never reads or writes `historical_cache`. -/
def handleRequest (env : UpstreamEnv) (cache : HistCache) (payload : String) : RequestEffect :=
  match splitOnceColon payload with
  | none => ⟨0, [], cache⟩
  | some (symbol, timeframe) =>
    let result := fetch_historical_data_server env symbol timeframe
    if result.success then ⟨1, [(symbol, timeframe, result)], cache⟩
    else ⟨1, [], cache⟩

/-- Each incoming request message spawns its own independent fetch task
(request_handler.rs line 64); a batch of concurrently received requests is
therefore the independent sum of the per-message effects. -/
def batchFetches (env : UpstreamEnv) (cache : HistCache) (payloads : List String) : Nat :=
  (payloads.map fun p => (handleRequest env cache p).upstreamFetches).sum

/-- Total number of retained publishes produced by a batch of requests. -/
def batchPublishes (env : UpstreamEnv) (cache : HistCache) (payloads : List String) : Nat :=
  (payloads.map fun p => (handleRequest env cache p).publishes.length).sum

/-- Observable effect of the HTTP facade handler `get_historical_data`
(crates/server/src/handlers.rs lines 46-79). -/
structure HttpEffect where
  result : HistoricalDataResult
  cacheAfter : HistCache
  publishes : List (String × String × HistoricalDataResult)
deriving Repr, DecidableEq

/-- Shallow embedding of the HTTP facade handler (handlers.rs lines
46-79): fetch upstream, insert the result into the historical cache under
`"<symbol>:<timeframe>"` unconditionally, then publish retained iff the
fetch succeeded. -/
def http_get_historical_data (env : UpstreamEnv) (cache : HistCache) (now : Nat)
    (symbol timeframe : String) : HttpEffect :=
  let result := fetch_historical_data_server env symbol timeframe
  let key := symbol ++ ":" ++ timeframe
  { result := result
    cacheAfter := cacheInsert cache key (result, now)
    publishes := if result.success then [(symbol, timeframe, result)] else [] }

/-- A concrete upstream world whose fetch succeeds with one point. -/
def envGood : UpstreamEnv :=
  ⟨.found 1, .quotes [⟨some 100, some 50000, some 3⟩]⟩

/-- A concrete fresh cache entry for the key "BTC:24h". -/
def cacheWithBtc : HistCache :=
  [("BTC:24h", fetch_historical_data_server envGood "BTC" "24h", 1000)]

/-- C1 counterexample: with an entry for (BTC, 24h) already in the
publisher-side cache (inserted at the current instant, hence as fresh as
possible), the request handler still performs an upstream fetch, and
after its successful fetch the cache is untouched — it neither
short-circuits on a cache hit nor writes the cache before publishing. -/
theorem C1_counterexample :
    (handleRequest envGood cacheWithBtc "BTC:24h").upstreamFetches = 1 ∧
    (handleRequest envGood cacheWithBtc "BTC:24h").cacheAfter = cacheWithBtc ∧
    (fetch_historical_data_server envGood "BTC" "24h").success = true := by
  decide

/-- C1 amended: the request handler never consults or writes the
publisher-side historical cache: every well-formed request
"<SYMBOL>:<TIMEFRAME>" triggers exactly one upstream fetch; on a
successful fetch it publishes the fetched Series on the matching
historical topic with the cache left unchanged, and on a failed fetch it
neither writes the cache nor publishes. -/
theorem C1_amended (env : UpstreamEnv) (cache : HistCache) (payload s t : String)
    (h : splitOnceColon payload = some (s, t)) :
    (handleRequest env cache payload).upstreamFetches = 1 ∧
    (handleRequest env cache payload).cacheAfter = cache ∧
    ((fetch_historical_data_server env s t).success = true →
      (handleRequest env cache payload).publishes =
        [(s, t, fetch_historical_data_server env s t)]) ∧
    ((fetch_historical_data_server env s t).success = false →
      (handleRequest env cache payload).publishes = []) := by
  unfold handleRequest
  rw [h]
  cases hr : (fetch_historical_data_server env s t).success <;> simp [hr]

/-- Witness for C1 amended at the concrete request "BTC:24h". -/
theorem C1_amended_witness :
    (handleRequest envGood [] "BTC:24h").upstreamFetches = 1 ∧
    (handleRequest envGood [] "BTC:24h").cacheAfter = [] ∧
    (handleRequest envGood [] "BTC:24h").publishes =
      [("BTC", "24h", fetch_historical_data_server envGood "BTC" "24h")] := by
  have h := C1_amended envGood [] "BTC:24h" "BTC" "24h" (by decide)
  exact ⟨h.1, h.2.1, h.2.2.1 (by decide)⟩

/-- C2 counterexample: two concurrent requests for the same key (BTC,
24h) produce two upstream fetches and two retained publishes, not one —
there is no in-flight deduplication in the handler. -/
theorem C2_counterexample :
    batchFetches envGood [] ["BTC:24h", "BTC:24h"] = 2 ∧
    batchPublishes envGood [] ["BTC:24h", "BTC:24h"] = 2 := by
  decide

/-- C2 amended: there is no coalescing: N concurrent requests for the
same well-formed key produce N upstream fetches, and N retained publishes
when the fetch succeeds (none when it fails). -/
theorem C2_amended (env : UpstreamEnv) (cache : HistCache) (p s t : String) (N : Nat)
    (h : splitOnceColon p = some (s, t)) :
    batchFetches env cache (List.replicate N p) = N ∧
    batchPublishes env cache (List.replicate N p) =
      (if (fetch_historical_data_server env s t).success then N else 0) := by
  unfold batchFetches batchPublishes
  rw [List.map_replicate, List.map_replicate, List.sum_replicate, List.sum_replicate,
    smul_eq_mul, smul_eq_mul]
  unfold handleRequest
  rw [h]
  cases hr : (fetch_historical_data_server env s t).success <;> simp [hr]

/-- Witness for C2 amended: three concurrent "BTC:24h" requests yield
three fetches and three publishes. -/
theorem C2_amended_witness :
    batchFetches envGood [] (List.replicate 3 "BTC:24h") = 3 ∧
    batchPublishes envGood [] (List.replicate 3 "BTC:24h") =
      (if (fetch_historical_data_server envGood "BTC" "24h").success then 3 else 0) :=
  C2_amended envGood [] "BTC:24h" "BTC" "24h" 3 (by decide)

/-- C7 counterexample: a bus-triggered historical fetch that succeeds
(the handler publishes the Series) writes nothing into the publisher-side
historical cache — starting from the empty cache, the key "BTC:24h" is
still absent afterwards. -/
theorem C7_counterexample :
    (fetch_historical_data_server envGood "BTC" "24h").success = true ∧
    (handleRequest envGood [] "BTC:24h").publishes.length = 1 ∧
    (handleRequest envGood [] "BTC:24h").cacheAfter = [] ∧
    cacheLookup (handleRequest envGood [] "BTC:24h").cacheAfter "BTC:24h" = none := by
  decide

/-- C7 amended: only the HTTP facade writes the publisher-side historical
cache, and it does so on every fetch, successful or not, keying
"<symbol>:<timeframe>" to the Series and its insertion time; the bus
request path leaves the cache exactly as it was. -/
theorem C7_amended (env : UpstreamEnv) (cache : HistCache) (now : Nat)
    (symbol timeframe payload : String) :
    cacheLookup (http_get_historical_data env cache now symbol timeframe).cacheAfter
        (symbol ++ ":" ++ timeframe) =
      some (fetch_historical_data_server env symbol timeframe, now) ∧
    (handleRequest env cache payload).cacheAfter = cache := by
  constructor
  · unfold http_get_historical_data cacheInsert cacheLookup
    simp [List.find?_cons]
  · unfold handleRequest
    cases h : splitOnceColon payload with
    | none => rfl
    | some st =>
      cases hr : (fetch_historical_data_server env st.1 st.2).success <;> simp [hr]

/-! ## Subscriber client state (crates/ios_lib/src/mqtt/client.rs)

`MQTTClient` holds the subscriber-side caches and connection state behind
mutexes; the handles to the async client and the runtime carry no data
relevant to the claims, so the state record carries the five data-bearing
slots plus the `max_retry_attempts` constant.  The callback slot holds an
opaque function pointer, modelled by an opaque handle. -/

/-- Subscriber-side historical cache: full topic string to Series. -/
def SubHistCache := List (String × HistoricalDataResult)
deriving Repr, DecidableEq

/-- `HashMap::get` on the subscriber historical cache. -/
def subLookup (c : SubHistCache) (topic : String) : Option HistoricalDataResult :=
  ((c : List _).find? (fun e => e.1 == topic)).map Prod.snd

/-- `HashMap::insert` on the subscriber historical cache. -/
def subInsert (c : SubHistCache) (topic : String) (r : HistoricalDataResult) : SubHistCache :=
  (topic, r) :: (c : List _).filter (fun e => e.1 != topic)

/-- Mutable state of `MQTTClient` (client.rs lines 18-27). -/
structure MQTTClientState where
  latest_prices : Option (List CryptoCurrency)
  historical_data : SubHistCache
  is_connected : Bool
  connection_attempts : Nat
  max_retry_attempts : Nat
  price_update_callback : Option Nat
deriving Repr, DecidableEq

/-- `MQTTClient::reset_connection_attempts` (client.rs lines 104-107):
zero the attempts counter. -/
def reset_connection_attempts (s : MQTTClientState) : MQTTClientState :=
  { s with connection_attempts := 0 }

/-- C10: in every state, `reset_connection_attempts` sets the
connection-attempts counter to zero and leaves the latest-prices cache,
the historical cache, the connected flag and the callback slot exactly as
they were. -/
theorem C10_reset_frame (s : MQTTClientState) :
    (reset_connection_attempts s).connection_attempts = 0 ∧
    (reset_connection_attempts s).latest_prices = s.latest_prices ∧
    (reset_connection_attempts s).historical_data = s.historical_data ∧
    (reset_connection_attempts s).is_connected = s.is_connected ∧
    (reset_connection_attempts s).price_update_callback = s.price_update_callback ∧
    (reset_connection_attempts s).max_retry_attempts = s.max_retry_attempts :=
  ⟨rfl, rfl, rfl, rfl, rfl, rfl⟩

/-! ## Connection manager (crates/ios_lib/src/mqtt/connection.rs)

The event loop's error and connect-ack branches touch only the
`is_connected` flag and the `connection_attempts` counter, which are
passed to the handlers as two separate mutex-guarded slots. -/

/-- The two slots handed to the connection handlers. -/
structure ConnState where
  is_connected : Bool
  connection_attempts : Nat
deriving Repr, DecidableEq

/-- Outcome of one `handle_connection_error` call: the updated slots, the
sleep it performed in seconds (`none` when it slept not at all), and
whether it told the event loop to exit. -/
structure ErrorStep where
  state : ConnState
  sleptSecs : Option Nat
  exitLoop : Bool
deriving Repr, DecidableEq

/-- Shallow embedding of `ConnectionManager::handle_connection_error`
(connection.rs lines 109-132): clear the connected flag, increment the
counter; while the new count is at most 5 sleep `2 ^ min (count-1) 5`
seconds and continue, otherwise exit the loop. -/
def handle_connection_error (s : ConnState) : ErrorStep :=
  let attempts := s.connection_attempts + 1
  if attempts ≤ 5 then
    ⟨⟨false, attempts⟩, some (2 ^ (min (attempts - 1) 5)), false⟩
  else
    ⟨⟨false, attempts⟩, none, true⟩

/-- Shallow embedding of `ConnectionManager::handle_connection_success`
(connection.rs lines 81-101): set the connected flag and zero the retry
counter (the re-subscriptions it also issues carry no state). -/
def handle_connection_success (_ : ConnState) : ConnState :=
  ⟨true, 0⟩

/-- C4: on the N-th consecutive poll error (counter at N-1 beforehand)
the handler clears the connected flag and sets the counter to N; for
N ≤ 5 it sleeps exactly `min (2^(N-1)) 32` seconds and continues, for
N ≥ 6 it exits the loop without sleeping; and a connect acknowledgment
resets the counter to zero. -/
theorem C4_backoff (c : Bool) (N : Nat) (hN : 1 ≤ N) :
    ((handle_connection_error ⟨c, N - 1⟩).state.is_connected = false ∧
     (handle_connection_error ⟨c, N - 1⟩).state.connection_attempts = N ∧
     (N ≤ 5 →
       (handle_connection_error ⟨c, N - 1⟩).exitLoop = false ∧
       (handle_connection_error ⟨c, N - 1⟩).sleptSecs = some (min (2 ^ (N - 1)) 32)) ∧
     (6 ≤ N →
       (handle_connection_error ⟨c, N - 1⟩).exitLoop = true ∧
       (handle_connection_error ⟨c, N - 1⟩).sleptSecs = none)) ∧
    (∀ s : ConnState, handle_connection_success s = ⟨true, 0⟩) := by
  have hA : N - 1 + 1 = N := by omega
  constructor
  · unfold handle_connection_error
    simp only [hA]
    by_cases h5 : N ≤ 5
    · have hmin : min (N - 1) 5 = N - 1 := by omega
      have hpow : 2 ^ (N - 1) ≤ 32 := by
        calc 2 ^ (N - 1) ≤ 2 ^ 4 := Nat.pow_le_pow_right (by norm_num) (by omega)
          _ ≤ 32 := by norm_num
      simp [h5, hmin, Nat.min_eq_left hpow]
      omega
    · simp [h5]
  · intro s
    rfl

/-- Witness for C4 at the third consecutive error and a concrete success
call. -/
theorem C4_backoff_witness :
    ((handle_connection_error ⟨true, 2⟩).state.is_connected = false ∧
     (handle_connection_error ⟨true, 2⟩).state.connection_attempts = 3 ∧
     (handle_connection_error ⟨true, 2⟩).exitLoop = false ∧
     (handle_connection_error ⟨true, 2⟩).sleptSecs = some (min (2 ^ 2) 32)) ∧
    handle_connection_success ⟨false, 7⟩ = ⟨true, 0⟩ := by
  have h := C4_backoff true 3 (by norm_num)
  have h5 := h.1.2.2.1 (by norm_num)
  exact ⟨⟨h.1.1, h.1.2.1, h5.1, h5.2⟩, h.2 ⟨false, 7⟩⟩

/-! ## Message handler debounce (crates/ios_lib/src/mqtt/message_handler.rs)

`MessageHandler` shares the price cache, historical cache and callback
slot with the client and owns `last_update_time` (an `Option Instant`)
plus the 500 ms `debounce_duration`.  Instants are modelled as
milliseconds on a monotone clock; `Instant` arithmetic never goes
negative, matching truncated `Nat` subtraction. -/

/-- State visible to `MessageHandler::handle_latest_prices`
(message_handler.rs lines 11-31). -/
structure MsgState where
  latest_prices : Option (List CryptoCurrency)
  last_update_time : Option Nat
  callback : Option Nat
deriving Repr, DecidableEq

/-- The `debounce_duration` constant, in milliseconds. -/
def debounceMs : Nat := 500

/-- Outcome of one `handle_latest_prices` call: the state afterwards,
whether the snapshot was accepted, and how many times the callback in the
slot was invoked. -/
structure MsgOutcome where
  state : MsgState
  accepted : Bool
  hookCalls : Nat
deriving Repr, DecidableEq

/-- Shallow embedding of `MessageHandler::handle_latest_prices`
(message_handler.rs lines 51-104).  `parsed` is the serde outcome for the
payload (`none` on parse failure); `now` is the `Instant::now()` reading
in milliseconds.  An update is accepted iff there was no prior accepted
update or at least `debounceMs` elapsed since it; only then are the cache
replaced, the accept instant recorded and the registered callback (if
any) invoked once. -/
def handle_latest_prices (s : MsgState) (now : Nat)
    (parsed : Option (List CryptoCurrency)) : MsgOutcome :=
  match parsed with
  | none => ⟨s, false, 0⟩
  | some crypto_data =>
    let should_update :=
      match s.last_update_time with
      | some last => !decide (now - last < debounceMs)
      | none => true
    if should_update then
      ⟨⟨some crypto_data, some now, s.callback⟩, true,
        match s.callback with | some _ => 1 | none => 0⟩
    else
      ⟨s, false, 0⟩

/-- Times of the accepted snapshots when a sequence of
crypto/prices/latest deliveries is processed in receipt order, starting
from state `s`. -/
def acceptTimesFrom (s : MsgState) :
    List (Nat × Option (List CryptoCurrency)) → List Nat
  | [] => []
  | (t, p) :: rest =>
    let out := handle_latest_prices s t p
    if out.accepted then t :: acceptTimesFrom out.state rest
    else acceptTimesFrom out.state rest

/-- A rejected or unparseable delivery leaves the state untouched. -/
lemma handle_latest_prices_not_accepted (s : MsgState) (now : Nat)
    (p : Option (List CryptoCurrency))
    (h : (handle_latest_prices s now p).accepted = false) :
    (handle_latest_prices s now p).state = s := by
  unfold handle_latest_prices at *
  cases p with
  | none => rfl
  | some cd =>
    by_cases hs : (match s.last_update_time with
      | some last => !decide (now - last < debounceMs)
      | none => true) = true
    · simp [hs] at h
    · simp [hs] at *

/-- An accepted delivery records `now` as the accept instant. -/
lemma handle_latest_prices_accepted_time (s : MsgState) (now : Nat)
    (p : Option (List CryptoCurrency))
    (h : (handle_latest_prices s now p).accepted = true) :
    (handle_latest_prices s now p).state.last_update_time = some now := by
  unfold handle_latest_prices at *
  cases p with
  | none => simp at h
  | some cd =>
    by_cases hs : (match s.last_update_time with
      | some last => !decide (now - last < debounceMs)
      | none => true) = true
    · simp [hs]
    · simp [hs] at h

/-- Acceptance at time `now` with a recorded prior accept at `L` forces
the full debounce window to have elapsed. -/
lemma handle_latest_prices_accepted_gap (s : MsgState) (now L : Nat)
    (p : Option (List CryptoCurrency))
    (hL : s.last_update_time = some L)
    (h : (handle_latest_prices s now p).accepted = true) :
    debounceMs ≤ now - L := by
  unfold handle_latest_prices at h
  cases p with
  | none => simp at h
  | some cd =>
    rw [hL] at h
    by_cases hlt : now - L < debounceMs
    · simp [hlt] at h
    · omega

/-- Every accept time recorded while running from a state whose last
accept was at `L`, over a time-monotone delivery sequence all at or after
`L`, lies at least a full debounce window after `L`. -/
lemma acceptTimesFrom_ge (events : List (Nat × Option (List CryptoCurrency))) :
    ∀ (s : MsgState) (L : Nat), s.last_update_time = some L →
      List.Pairwise (· ≤ ·) (events.map Prod.fst) →
      (∀ t ∈ events.map Prod.fst, L ≤ t) →
      ∀ u ∈ acceptTimesFrom s events, L + debounceMs ≤ u := by
  induction events with
  | nil => intro s L _ _ _ u hu; simp [acceptTimesFrom] at hu
  | cons e rest ih =>
    intro s L hL hpw hall u hu
    obtain ⟨t, p⟩ := e
    rw [List.map_cons, List.pairwise_cons] at hpw
    have ht : L ≤ t := hall t (by simp)
    have hrest : ∀ t' ∈ rest.map Prod.fst, L ≤ t' := by
      intro t' ht'
      exact hall t' (by simp [ht'])
    unfold acceptTimesFrom at hu
    by_cases hacc : (handle_latest_prices s t p).accepted = true
    · rw [if_pos hacc] at hu
      rcases List.mem_cons.mp hu with hu | hu
      · have := handle_latest_prices_accepted_gap s t L p hL hacc
        omega
      · have hstate := handle_latest_prices_accepted_time s t p hacc
        have hge := ih (handle_latest_prices s t p).state t hstate hpw.2 hpw.1 u hu
        omega
    · rw [if_neg (by simp [hacc])] at hu
      rw [handle_latest_prices_not_accepted s t p (by simpa using hacc)] at hu
      exact ih s L hL hpw.2 hrest u hu

/-- The accept times of any time-monotone delivery sequence are pairwise
at least a debounce window apart, from any state that respects the trace
(every delivery at or after the recorded accept instant, if any). -/
lemma acceptTimesFrom_pairwise (events : List (Nat × Option (List CryptoCurrency))) :
    ∀ (s : MsgState),
      List.Pairwise (· ≤ ·) (events.map Prod.fst) →
      (∀ L, s.last_update_time = some L → ∀ t ∈ events.map Prod.fst, L ≤ t) →
      List.Pairwise (fun a b => a + debounceMs ≤ b) (acceptTimesFrom s events) := by
  induction events with
  | nil => intro s _ _; simp [acceptTimesFrom]
  | cons e rest ih =>
    intro s hpw hinit
    obtain ⟨t, p⟩ := e
    rw [List.map_cons, List.pairwise_cons] at hpw
    unfold acceptTimesFrom
    by_cases hacc : (handle_latest_prices s t p).accepted = true
    · rw [if_pos hacc]
      have hstate := handle_latest_prices_accepted_time s t p hacc
      refine List.pairwise_cons.mpr ⟨?_, ?_⟩
      · intro u hu
        exact acceptTimesFrom_ge rest (handle_latest_prices s t p).state t hstate
          hpw.2 hpw.1 u hu
      · exact ih (handle_latest_prices s t p).state hpw.2
          (by intro L hL t' ht'; rw [hstate] at hL; cases hL; exact hpw.1 t' ht')
    · rw [if_neg (by simp [hacc])]
      rw [handle_latest_prices_not_accepted s t p (by simpa using hacc)]
      refine ih s hpw.2 ?_
      intro L hL t' ht'
      exact hinit L hL t' (by simp [ht'])

/-- C5: a snapshot on crypto/prices/latest is accepted iff there was no
prior accepted snapshot or at least 500 ms elapsed since the last
accepted one; a rejected snapshot changes nothing and invokes no hook; an
accepted one replaces the cache and invokes the registered callback
exactly once (not at all when the slot is empty); and over any
time-monotone delivery sequence from a fresh handler, accept times — the
only times the hook can fire — are pairwise at least 500 ms apart. -/
theorem C5_debounce :
    (∀ (s : MsgState) (now : Nat) (cd : List CryptoCurrency),
      (handle_latest_prices s now (some cd)).accepted = true ↔
        (s.last_update_time = none ∨
          ∃ L, s.last_update_time = some L ∧ debounceMs ≤ now - L)) ∧
    (∀ (s : MsgState) (now : Nat) (p : Option (List CryptoCurrency)),
      (handle_latest_prices s now p).accepted = false →
        (handle_latest_prices s now p).state = s ∧
        (handle_latest_prices s now p).hookCalls = 0) ∧
    (∀ (s : MsgState) (now : Nat) (cd : List CryptoCurrency),
      (handle_latest_prices s now (some cd)).accepted = true →
        (handle_latest_prices s now (some cd)).state.latest_prices = some cd ∧
        ((s.callback).isSome = true →
          (handle_latest_prices s now (some cd)).hookCalls = 1) ∧
        (s.callback = none → (handle_latest_prices s now (some cd)).hookCalls = 0)) ∧
    (∀ (s0 : MsgState) (events : List (Nat × Option (List CryptoCurrency))),
      s0.last_update_time = none →
      List.Pairwise (· ≤ ·) (events.map Prod.fst) →
      List.Pairwise (fun a b => a + debounceMs ≤ b) (acceptTimesFrom s0 events)) := by
  refine ⟨?_, ?_, ?_, ?_⟩
  · intro s now cd
    unfold handle_latest_prices
    cases hL : s.last_update_time with
    | none => simp
    | some L =>
      by_cases hlt : now - L < debounceMs
      · simp [hlt]
      · simp [hlt]
        omega
  · intro s now p h
    exact ⟨handle_latest_prices_not_accepted s now p h, by
      unfold handle_latest_prices at *
      cases p with
      | none => rfl
      | some cd =>
        by_cases hs : (match s.last_update_time with
          | some last => !decide (now - last < debounceMs)
          | none => true) = true
        · simp [hs] at h
        · simp [hs] at *⟩
  · intro s now cd h
    unfold handle_latest_prices at *
    by_cases hs : (match s.last_update_time with
      | some last => !decide (now - last < debounceMs)
      | none => true) = true
    · simp [hs]
      cases hc : s.callback <;> simp [hc]
    · simp [hs] at h
  · intro s0 events h0 hpw
    exact acceptTimesFrom_pairwise events s0 hpw
      (by intro L hL; rw [h0] at hL; cases hL)

/-- Witness for C5 at concrete inputs: an accept 600 ms after the last
accepted snapshot, a rejection leaving the state unchanged, and the
accept times of a fresh handler fed deliveries at 0, 100 and 700 ms. -/
theorem C5_debounce_witness :
    (handle_latest_prices ⟨none, some 0, some 5⟩ 600 (some [])).accepted = true ∧
    ((handle_latest_prices ⟨none, some 0, some 5⟩ 100 (some [])).state
        = ⟨none, some 0, some 5⟩ ∧
      (handle_latest_prices ⟨none, some 0, some 5⟩ 100 (some [])).hookCalls = 0) ∧
    List.Pairwise (fun a b => a + debounceMs ≤ b)
      (acceptTimesFrom ⟨none, none, some 5⟩ [(0, some []), (100, some []), (700, some [])]) := by
  refine ⟨?_, ?_, ?_⟩
  · exact (C5_debounce.1 ⟨none, some 0, some 5⟩ 600 []).mpr
      (Or.inr ⟨0, rfl, by norm_num [debounceMs]⟩)
  · exact C5_debounce.2.1 ⟨none, some 0, some 5⟩ 100 (some []) (by decide)
  · exact C5_debounce.2.2.2 ⟨none, none, some 5⟩
      [(0, some []), (100, some []), (700, some [])] rfl
      (by norm_num [List.pairwise_cons])

/-! ## FFI entry point `get_historical_data` (crates/ios_lib/src/ffi.rs)

The C entry point reads the global client slot, possibly installs a new
client, reads the subscriber historical cache, publishes a bus request
and re-reads the cache after a fixed wait.  The broker's and clock's
behaviour is captured by an environment: the global slot's state at
entry, the outcome of creating and connecting a replacement client
(including that fresh client's state after the 1 s settling sleep, during
which retained deliveries may already have arrived), and the acting
client's historical cache as it stands at the post-request retry. -/

/-- Outcome of `MQTTClient::new()` plus `connect()` for the replacement
client, as observable at the cache check (ffi.rs lines 140-160). -/
inductive NewClientOutcome where
  | initFail
  | connectFail
  | ok (fresh : MQTTClientState)
deriving Repr, DecidableEq

/-- Environment of one `get_historical_data` FFI call. -/
structure FfiEnv where
  global : Option MQTTClientState
  newClient : NewClientOutcome
  cacheAtRetry : SubHistCache
deriving Repr, DecidableEq

/-- What the FFI call hands back: either one of the literal error JSON
strings of ffi.rs (`{"success":false,"error":<e>,"data":[]}`, represented
by its error message) or a serialized `HistoricalDataResult`. -/
inductive FfiResult where
  | errJson (error : String)
  | series (r : HistoricalDataResult)
deriving Repr, DecidableEq

/-- Observable outcome of one FFI `get_historical_data` call. -/
structure FfiOutcome where
  result : FfiResult
  publishedRequests : List (String × String)
  installedNewClient : Bool
  sleptMs : Nat
deriving Repr, DecidableEq

/-- The historical topic used by `MQTTClient::get_historical_data`
(client.rs lines 91-94). -/
def historicalTopic (symbol timeframe : String) : String :=
  "crypto/historical/" ++ toUpperStr symbol ++ "/" ++ timeframe

/-- The cache-check, request and retry phase of the FFI call (ffi.rs
lines 163-218), entered with the acting client's cache `cacheNow` and the
effects accumulated so far: hit the cache and return; otherwise publish
"<symbol>:<timeframe>" on crypto/requests/historical, sleep 2000 ms,
re-check the cache once, and fall back to the fixed error result. -/
def ffiLookupPhase (env : FfiEnv) (symbol timeframe : String) (cacheNow : SubHistCache)
    (installed : Bool) (sleptMs : Nat) : FfiOutcome :=
  match subLookup cacheNow (historicalTopic symbol timeframe) with
  | some r => ⟨.series r, [], installed, sleptMs⟩
  | none =>
    let payload := symbol ++ ":" ++ timeframe
    match subLookup env.cacheAtRetry (historicalTopic symbol timeframe) with
    | some r =>
      ⟨.series r, [("crypto/requests/historical", payload)], installed, sleptMs + 2000⟩
    | none =>
      ⟨.series ⟨false, [], some "MQTT data not available after request - server may be busy",
          some symbol, some timeframe⟩,
        [("crypto/requests/historical", payload)], installed, sleptMs + 2000⟩

/-- Shallow embedding of the FFI `get_historical_data` (ffi.rs lines
108-219).  `symUtf8`/`tfUtf8` are the UTF-8 decodings of the two C
strings (`none` on invalid UTF-8).  When the global client is absent or
disconnected a replacement client is created, connected, installed and
given 1000 ms to settle before the cache check. -/
def ffi_get_historical_data (env : FfiEnv) (symUtf8 tfUtf8 : Option String) : FfiOutcome :=
  match symUtf8 with
  | none => ⟨.errJson "Invalid symbol", [], false, 0⟩
  | some symbol =>
    match tfUtf8 with
    | none => ⟨.errJson "Invalid timeframe", [], false, 0⟩
    | some timeframe =>
      match env.global with
      | some view =>
        if view.is_connected then
          ffiLookupPhase env symbol timeframe view.historical_data false 0
        else
          match env.newClient with
          | .initFail => ⟨.errJson "Failed to initialize MQTT client", [], false, 0⟩
          | .connectFail => ⟨.errJson "Failed to connect to MQTT broker", [], false, 0⟩
          | .ok fresh => ffiLookupPhase env symbol timeframe fresh.historical_data true 1000
      | none =>
        match env.newClient with
        | .initFail => ⟨.errJson "Failed to initialize MQTT client", [], false, 0⟩
        | .connectFail => ⟨.errJson "Failed to connect to MQTT broker", [], false, 0⟩
        | .ok fresh => ffiLookupPhase env symbol timeframe fresh.historical_data true 1000

/-- A connected client with empty caches. -/
def connectedEmptyClient : MQTTClientState :=
  ⟨none, [], true, 0, 3, none⟩

/-- C9: when the symbol C string is not valid UTF-8 the FFI call returns
the literal JSON error "Invalid symbol" — and when the symbol decodes but
the timeframe does not, "Invalid timeframe" — publishing nothing,
installing no client, sleeping not at all, and independently of every
cache and broker state (so no cache is read or written). -/
theorem C9_invalid_utf8 :
    (∀ (env : FfiEnv) (tf : Option String),
      ffi_get_historical_data env none tf = ⟨.errJson "Invalid symbol", [], false, 0⟩) ∧
    (∀ (env : FfiEnv) (sym : String),
      ffi_get_historical_data env (some sym) none
        = ⟨.errJson "Invalid timeframe", [], false, 0⟩) :=
  ⟨fun _ _ => rfl, fun _ _ => rfl⟩

/-- The error message carried by an FFI result, whichever form it takes. -/
def ffiErrorOf : FfiResult → Option String
  | .errJson e => some e
  | .series r => r.error

/-- C3 counterexample: a connected client with no cached entry for
(BTC, 24h) and no response arriving within the window returns the error
"MQTT data not available after request - server may be busy", not the
"not available after request" the claim demands, after a single fixed
2000 ms sleep. -/
theorem C3_counterexample :
    (ffi_get_historical_data ⟨some connectedEmptyClient, .initFail, []⟩
        (some "BTC") (some "24h")).result
      = .series ⟨false, [],
          some "MQTT data not available after request - server may be busy",
          some "BTC", some "24h"⟩ ∧
    (ffi_get_historical_data ⟨some connectedEmptyClient, .initFail, []⟩
        (some "BTC") (some "24h")).publishedRequests
      = [("crypto/requests/historical", "BTC:24h")] ∧
    (ffi_get_historical_data ⟨some connectedEmptyClient, .initFail, []⟩
        (some "BTC") (some "24h")).sleptMs = 2000 ∧
    ffiErrorOf (ffi_get_historical_data ⟨some connectedEmptyClient, .initFail, []⟩
        (some "BTC") (some "24h")).result
      = some "MQTT data not available after request - server may be busy" ∧
    ffiErrorOf (ffi_get_historical_data ⟨some connectedEmptyClient, .initFail, []⟩
        (some "BTC") (some "24h")).result
      ≠ some "not available after request" := by
  refine ⟨by decide, by decide, by decide, by decide, by decide⟩

/-- C3 amended: on a call with a connected client, a cached entry for the
(uppercased symbol, timeframe) topic is returned immediately with nothing
published; on a cache miss the client publishes "<symbol>:<timeframe>" on
crypto/requests/historical, sleeps a fixed 2000 ms, re-checks the cache
once and returns the Series if it has arrived, and otherwise returns
success=false with error "MQTT data not available after request - server
may be busy". -/
theorem C3_amended (env : FfiEnv) (symbol timeframe : String) (view : MQTTClientState)
    (hg : env.global = some view) (hc : view.is_connected = true) :
    (∀ r, subLookup view.historical_data (historicalTopic symbol timeframe) = some r →
      ffi_get_historical_data env (some symbol) (some timeframe)
        = ⟨.series r, [], false, 0⟩) ∧
    (subLookup view.historical_data (historicalTopic symbol timeframe) = none →
      (ffi_get_historical_data env (some symbol) (some timeframe)).publishedRequests
        = [("crypto/requests/historical", symbol ++ ":" ++ timeframe)] ∧
      (ffi_get_historical_data env (some symbol) (some timeframe)).sleptMs = 2000 ∧
      (∀ r, subLookup env.cacheAtRetry (historicalTopic symbol timeframe) = some r →
        (ffi_get_historical_data env (some symbol) (some timeframe)).result = .series r) ∧
      (subLookup env.cacheAtRetry (historicalTopic symbol timeframe) = none →
        (ffi_get_historical_data env (some symbol) (some timeframe)).result
          = .series ⟨false, [],
              some "MQTT data not available after request - server may be busy",
              some symbol, some timeframe⟩)) := by
  unfold ffi_get_historical_data
  rw [hg]
  simp only [hc, if_pos]
  constructor
  · intro r hr
    unfold ffiLookupPhase
    rw [hr]
  · intro hmiss
    unfold ffiLookupPhase
    rw [hmiss]
    cases hretry : subLookup env.cacheAtRetry (historicalTopic symbol timeframe) <;>
      simp [hretry]

/-- Witness for C3 amended: a connected client holding the (ETH, 7d)
Series returns it immediately. -/
theorem C3_amended_witness :
    ffi_get_historical_data
        ⟨some ⟨none, [("crypto/historical/ETH/7d", ⟨true, [⟨1, 2, none⟩], none, some "ETH", some "7d"⟩)],
            true, 0, 3, none⟩, .initFail, []⟩
        (some "ETH") (some "7d")
      = ⟨.series ⟨true, [⟨1, 2, none⟩], none, some "ETH", some "7d"⟩, [], false, 0⟩ := by
  exact (C3_amended
    ⟨some ⟨none, [("crypto/historical/ETH/7d", ⟨true, [⟨1, 2, none⟩], none, some "ETH", some "7d"⟩)],
        true, 0, 3, none⟩, .initFail, []⟩
    "ETH" "7d"
    ⟨none, [("crypto/historical/ETH/7d", ⟨true, [⟨1, 2, none⟩], none, some "ETH", some "7d"⟩)],
        true, 0, 3, none⟩
    rfl rfl).1 ⟨true, [⟨1, 2, none⟩], none, some "ETH", some "7d"⟩ (by decide)

/-! ## FFI entry point `get_crypto_data`, cold-start wait (ffi.rs lines 49-67)

After installing a fresh client, `get_crypto_data` polls in 100 ms steps
until the client reports connected or holds a cached snapshot, or until
the elapsed time exceeds the 5-second timeout.  `ready k` tells whether
the condition holds at the k-th check (after k sleeps); sleeps are the
only time consumers, so elapsed time at the k-th check is 100·k ms.  The
source loop is unbounded but provably stops by k = 51 (5100 > 5000), so a
fuel of 52 makes the recursion structural without cutting any reachable
iteration short. -/

/-- One polling round of the cold-start wait; returns total blocked
milliseconds. -/
def coldWaitAux (ready : Nat → Bool) : Nat → Nat → Nat
  | 0, k => 100 * k
  | fuel + 1, k =>
    if ready k then 100 * k
    else if 5000 < 100 * k then 100 * k
    else coldWaitAux ready fuel (k + 1)

/-- Total milliseconds `get_crypto_data` blocks in its cold-start wait
loop (ffi.rs lines 49-67). -/
def get_crypto_data_cold_wait (ready : Nat → Bool) : Nat :=
  coldWaitAux ready 52 0

/-- The wait never exceeds the timeout plus one polling step. -/
lemma coldWaitAux_le (ready : Nat → Bool) :
    ∀ fuel k, 100 * k ≤ 5100 → coldWaitAux ready fuel k ≤ 5100 := by
  intro fuel
  induction fuel with
  | zero => intro k hk; simpa [coldWaitAux] using hk
  | succ n ih =>
    intro k hk
    unfold coldWaitAux
    by_cases hr : ready k
    · simpa [hr] using hk
    · by_cases ht : 5000 < 100 * k
      · simp [hr, ht]
        omega
      · simp [hr, ht]
        exact ih (k + 1) (by omega)

/-- C8 counterexample: a cold client that never connects and never
receives a retained snapshot blocks the `get_latest` caller for 5100 ms —
a 5-second timeout polled at 100 ms — far beyond the 2 seconds the claim
states. -/
theorem C8_counterexample :
    get_crypto_data_cold_wait (fun _ => false) = 5100 ∧
    ¬ get_crypto_data_cold_wait (fun _ => false) ≤ 2000 := by
  constructor
  · decide
  · decide

/-- C8 amended: the cold-start wait of `get_crypto_data` blocks until the
client is connected or holds a first retained snapshot, at most 5100 ms (a
5-second timeout polled in 100 ms steps); if the condition already holds
at the first check the call proceeds without blocking. -/
theorem C8_amended (ready : Nat → Bool) :
    get_crypto_data_cold_wait ready ≤ 5100 ∧
    (ready 0 = true → get_crypto_data_cold_wait ready = 0) := by
  constructor
  · exact coldWaitAux_le ready 52 0 (by norm_num)
  · intro h0
    unfold get_crypto_data_cold_wait coldWaitAux
    simp [h0]

/-- Witness for C8 amended at the always-ready oracle. -/
theorem C8_amended_witness :
    get_crypto_data_cold_wait (fun _ => true) ≤ 5100 ∧
    get_crypto_data_cold_wait (fun _ => true) = 0 :=
  ⟨(C8_amended (fun _ => true)).1, (C8_amended (fun _ => true)).2 rfl⟩

end CoinCrab
